import Mathlib

/-!
Shallow embedding of the remote execution bridge of `python/PythonBinding.py`
(classes `CcsExecutionResult`, `CcsException`, `CcsJythonInterpreter`,
`CcsPythonExecutorThread`).

Python `str` values are modelled as `List Char` (a Python string is a
sequence of Unicode code points).  The socket is modelled by the list of
results its successive `recv` calls produce: each `recv` either yields a
decoded chunk or raises, which we record as a `RecvResult`.
-/

set_option autoImplicit false

namespace PythonBinding

/-- Python `needle in haystack` substring test on strings. -/
def pyContains : List Char → List Char → Bool
  | needle, [] => needle.isEmpty
  | needle, c :: rest => needle.isPrefixOf (c :: rest) || pyContains needle rest

/-- Python `s.split(sep)` with an explicit one-character separator
(`output.split('\n')` in `listenToSocketOutput`): `''` splits to `['']`,
and separators at the ends produce empty fields. -/
def pySplit (sep : Char) : List Char → List (List Char)
  | [] => [[]]
  | c :: rest =>
    match pySplit sep rest with
    | [] => [[c]]
    | h :: t => if c = sep then [] :: h :: t else (c :: h) :: t

/-- Python 3 `\w` word-character class, restricted to the ASCII/underscore
characters the captured lines use. -/
def isWordChar (c : Char) : Bool := c.isAlphanum || c = '_'

/-- Matches `\w*Exception` at the head of the list (zero or more word
characters followed by the literal `Exception`). -/
def matchTail : List Char → Bool
  | [] => false
  | c :: rest => "Exception".toList.isPrefixOf (c :: rest) || (isWordChar c && matchTail rest)

/-- Matches the core of the source regex `java.lang.\w*Exception` at the head
of the list.  The two dots of `java.lang.` are NOT escaped in the source
(`re.compile(r'.*java.lang.\w*Exception.*')`), so each matches any character
other than a newline. -/
def matchCoreAt : List Char → Bool
  | 'j' :: 'a' :: 'v' :: 'a' :: c1 :: 'l' :: 'a' :: 'n' :: 'g' :: c2 :: rest =>
    (c1 != '\n') && (c2 != '\n') && matchTail rest
  | _ => false

/-- Semantics of `re_obj.match(item)` for `re_obj = re.compile(r'.*java.lang.\w*Exception.*')`:
the leading `.*` lets the core match start at any position not preceded by a
newline; the trailing `.*` always succeeds. -/
def reMatchFatal : List Char → Bool
  | [] => false
  | c :: rest => matchCoreAt (c :: rest) || (c != '\n' && reMatchFatal rest)

/-- Class `CcsException` from the source, carrying its `value` string. -/
structure CcsException where
  value : List Char
  deriving DecidableEq, Repr

/-- Mutable state of a `CcsPythonExecutorThread`: its correlation id and the
fields `running`, `execution_output` and `java_exceptions` that
`listenToSocketOutput` updates. -/
structure CcsPythonExecutorThread where
  thread_id : List Char
  running : Bool
  execution_output : List Char
  java_exceptions : List (List Char)
  deriving DecidableEq, Repr

/-- The state of the executor thread when `listenToSocketOutput` starts:
`executePythonContent` has set `running = True`, `__init__` has set
`java_exceptions = []`, and the listener initializes `execution_output = ""`. -/
def initThread (thread_id : List Char) : CcsPythonExecutorThread :=
  { thread_id := thread_id, running := true, execution_output := [], java_exceptions := [] }

/-- The completion marker `"doneExecution:" + self.thread_id`. -/
def doneMarker (thread_id : List Char) : List Char :=
  "doneExecution:".toList ++ thread_id

instance {ε α : Type} [DecidableEq ε] [DecidableEq α] : DecidableEq (Except ε α)
  | .error e, .error f =>
    if h : e = f then .isTrue (by rw [h]) else .isFalse (by intro hh; cases hh; exact h rfl)
  | .error _, .ok _ => .isFalse (by intro h; cases h)
  | .ok _, .error _ => .isFalse (by intro h; cases h)
  | .ok a, .ok b =>
    if h : a = b then .isTrue (by rw [h]) else .isFalse (by intro hh; cases hh; exact h rfl)

/-- One result of `self.socket_connection.recv(1024).decode('utf-8')`:
either a decoded chunk, or the read raised (any exception). -/
inductive RecvResult where
  | chunk : List Char → RecvResult
  | failure : List Char → RecvResult
  deriving DecidableEq, Repr

/-- Body of the `while self.running` loop of `listenToSocketOutput` for one
received chunk `output`: every line of the chunk matching the fatal regex is
appended to `java_exceptions`; then, if the chunk does not contain
`doneExecution:<thread_id>`, it is appended to `execution_output` (and
mirrored to stdout, an effect outside the model), otherwise `running` is set
to `False`. -/
def processChunk (s : CcsPythonExecutorThread) (output : List Char) : CcsPythonExecutorThread :=
  let s1 := { s with
    java_exceptions := s.java_exceptions ++ (pySplit '\n' output).filter reMatchFatal }
  if pyContains (doneMarker s.thread_id) output = false then
    { s1 with execution_output := s1.execution_output ++ output }
  else
    { s1 with running := false }

/-- Method `CcsPythonExecutorThread.listenToSocketOutput`, run over the finite list
of results the socket's successive `recv` calls deliver.  While `running`
holds, each `recv` result is consumed: a raising read makes the method raise
`CcsException("Communication Problem with Socket")` (no retry); a chunk is
handled by `processChunk`.  Once `running` is `False` the loop exits and the
state is final.  If the event list runs out while `running` is still true,
the returned state records that the listener is still waiting. -/
def listenToSocketOutput : List RecvResult → CcsPythonExecutorThread →
    Except CcsException CcsPythonExecutorThread
  | [], s => .ok s
  | e :: es, s =>
    if s.running then
      match e with
      | .failure _ => .error ⟨"Communication Problem with Socket".toList⟩
      | .chunk output => listenToSocketOutput es (processChunk s output)
    else .ok s

/-- Method `CcsPythonExecutorThread.executePythonContent`: wraps the content as
`"startContent:" + thread_id + "\n" + content + "\nendContent:" + thread_id + "\n"`
and sends it with a single `socket_connection.send`.  The returned list is
the list of writes performed (always exactly one). -/
def executePythonContent (thread_id content : List Char) : List (List Char) :=
  ["startContent:".toList ++ thread_id ++ ['\n'] ++ content ++
    ['\n'] ++ "endContent:".toList ++ thread_id ++ ['\n']]

/-- A decoder for the framing: the framed submission has
`startContent:<id>` as its first line and `endContent:<id>` as its last
line; this takes the text strictly between those two lines (dropping the
prefix `startContent:<id>\n` and the suffix `\nendContent:<id>\n`). -/
def decodeBetween (thread_id framed : List Char) : List Char :=
  (framed.drop ("startContent:".toList ++ thread_id ++ ['\n']).length).take
    (framed.length - ("startContent:".toList ++ thread_id ++ ['\n']).length -
      (['\n'] ++ "endContent:".toList ++ thread_id ++ ['\n']).length)

/-- Method `CcsExecutionResult.getOutput`: spins in `while self.thread.running:
time.sleep(0.1)` and then returns `self.thread.execution_output`.  The
argument is the sequence of states of the executor thread the poll loop
observes, one per iteration; the result is `none` when every observed state
still has `running = True` (the call has not returned), and
`some output` of the first observed state with `running = False`
(the call returns immediately at that poll). -/
def getOutput : List CcsPythonExecutorThread → Option (List Char)
  | [] => none
  | s :: rest => if s.running then getOutput rest else some s.execution_output

/-- What `getOutput` eventually returns once the listener has stopped at the
given final result: `none` when the listener raised or is still running
(`getOutput` would spin forever), otherwise the accumulated output. -/
def resultOutput : Except CcsException CcsPythonExecutorThread → Option (List Char)
  | .error _ => none
  | .ok s => getOutput [s]

/-- Method `CcsJythonInterpreter._socket_connection`: opens the stream socket
(`connect_ok = false` models `socket.connect` raising) and performs exactly
one `recv(1024)` read of the greeting `connectionResult`; if the greeting
contains `"ConnectionRefused"`, raises `CcsException("Connection Refused")`.
There is no retry. -/
def socket_connection (connect_ok : Bool) (connectionResult : List Char) :
    Except CcsException Unit :=
  if connect_ok = false then .error ⟨"socket.error".toList⟩
  else if pyContains ("ConnectionRefused".toList) connectionResult = true then
    .error ⟨"Connection Refused".toList⟩
  else .ok ()

/-- The `try`/`except` around `self._socket_connection()` in
`CcsJythonInterpreter.__init__` (lines 45-52): any failure of
`_socket_connection` is re-raised as
`CcsException("Could not connect to CCS Python Interpreter on host:port ...")`;
on success the connection is kept. -/
def interpreter_connect (connect_ok : Bool) (connectionResult : List Char) :
    Except CcsException Unit :=
  match socket_connection connect_ok connectionResult with
  | .ok _ => .ok ()
  | .error _ =>
    .error ⟨"Could not connect to CCS Python Interpreter on host:port".toList⟩

/-- Method `CcsJythonInterpreter.aSyncExecution` via `sendInterpreterServer`: frames
and sends the content on the executor thread with correlation id `thread_id`,
starts the listener, and returns at once.  The observable behaviour, given
the socket's `recv` results `events`, is the pair (writes performed, final
listener result). -/
def aSyncExecution (thread_id content : List Char) (events : List RecvResult) :
    List (List Char) × Except CcsException CcsPythonExecutorThread :=
  (executePythonContent thread_id content, listenToSocketOutput events (initThread thread_id))

/-- Method `CcsJythonInterpreter.syncExecution`: performs the same submission as
`aSyncExecution` and then calls `result.getOutput()`, waiting for the
listener to stop before returning the handle.  The third component is the
value that this blocking `getOutput()` call returns. -/
def syncExecution (thread_id content : List Char) (events : List RecvResult) :
    List (List Char) × Except CcsException CcsPythonExecutorThread × Option (List Char) :=
  let r := aSyncExecution thread_id content events
  (r.1, r.2, resultOutput r.2)

/-- Matches, at the head of the list, the fatal pattern as the specification
words it: the literal token `java.lang.` followed by a word ending in
`Exception`. -/
def specCoreAt : List Char → Bool
  | 'j' :: 'a' :: 'v' :: 'a' :: '.' :: 'l' :: 'a' :: 'n' :: 'g' :: '.' :: rest => matchTail rest
  | _ => false

/-- The fatal pattern exactly as the specification describes it: the line
"contains the token `java.lang.` followed by a word ending in `Exception`"
(with a literal dot after `java` and after `lang`). -/
def specFatalPattern : List Char → Bool
  | [] => false
  | c :: rest => specCoreAt (c :: rest) || specFatalPattern rest

/-! ### Helper lemmas -/

/-- Once `running` is `False`, the listener loop body never runs again: the
state is final whatever the socket would deliver next. -/
lemma listen_stopped (events : List RecvResult) (s : CcsPythonExecutorThread)
    (h : s.running = false) : listenToSocketOutput events s = .ok s := by
  cases events with
  | nil => rfl
  | cons e es => simp [listenToSocketOutput, h]

/-- Effect of `processChunk` on a chunk free of this thread's completion marker:
the chunk is appended to the output, its fatal lines to the exception list,
and `running` is untouched. -/
lemma processChunk_clean (s : CcsPythonExecutorThread) (c : List Char)
    (h : pyContains (doneMarker s.thread_id) c = false) :
    processChunk s c =
      { thread_id := s.thread_id, running := s.running,
        execution_output := s.execution_output ++ c,
        java_exceptions := s.java_exceptions ++ (pySplit '\n' c).filter reMatchFatal } := by
  simp [processChunk, h]

/-- Effect of `processChunk` on a chunk containing this thread's completion marker:
`running` is cleared, fatal lines are still captured, and the output is left
unchanged (the chunk is discarded). -/
lemma processChunk_marker (s : CcsPythonExecutorThread) (c : List Char)
    (h : pyContains (doneMarker s.thread_id) c = true) :
    processChunk s c =
      { thread_id := s.thread_id, running := false,
        execution_output := s.execution_output,
        java_exceptions := s.java_exceptions ++ (pySplit '\n' c).filter reMatchFatal } := by
  simp [processChunk, h]

/-- Running the listener over a prefix of marker-free chunks accumulates
their concatenation in `execution_output` and their fatal lines in
`java_exceptions`, with `running` still `True`, and then continues with the
remaining events. -/
lemma listen_clean_run (pre : List (List Char)) (rest : List RecvResult)
    (s : CcsPythonExecutorThread) (hrun : s.running = true)
    (hpre : ∀ x ∈ pre, pyContains (doneMarker s.thread_id) x = false) :
    listenToSocketOutput (pre.map RecvResult.chunk ++ rest) s =
      listenToSocketOutput rest
        { thread_id := s.thread_id, running := true,
          execution_output := s.execution_output ++ pre.flatten,
          java_exceptions := s.java_exceptions ++
            (pre.flatMap (pySplit '\n')).filter reMatchFatal } := by
  induction pre generalizing s with
  | nil =>
    obtain ⟨t, r, o, j⟩ := s
    simp only [CcsPythonExecutorThread.mk.injEq] at hrun ⊢
    subst hrun
    simp
  | cons c cs ih =>
    have hc : pyContains (doneMarker s.thread_id) c = false := hpre c (by simp)
    rw [List.map_cons, List.cons_append]
    rw [show listenToSocketOutput (RecvResult.chunk c :: (cs.map RecvResult.chunk ++ rest)) s =
          listenToSocketOutput (cs.map RecvResult.chunk ++ rest) (processChunk s c) by
        simp [listenToSocketOutput, hrun]]
    rw [processChunk_clean s c hc, hrun]
    rw [ih { thread_id := s.thread_id, running := true,
             execution_output := s.execution_output ++ c,
             java_exceptions := s.java_exceptions ++ List.filter reMatchFatal (pySplit '\n' c) }
          rfl (fun x hx => hpre x (by simp [hx]))]
    simp [List.filter_append, List.append_assoc]

/-- One iteration of the listener loop on a successfully received chunk. -/
lemma listen_step_chunk (e : List Char) (es : List RecvResult)
    (s : CcsPythonExecutorThread) (h : s.running = true) :
    listenToSocketOutput (RecvResult.chunk e :: es) s =
      listenToSocketOutput es (processChunk s e) := by
  simp [listenToSocketOutput, h]

/-- One iteration of the listener loop on a raising read: the loop raises
`CcsException("Communication Problem with Socket")` and consumes nothing
further. -/
lemma listen_step_failure (msg : List Char) (es : List RecvResult)
    (s : CcsPythonExecutorThread) (h : s.running = true) :
    listenToSocketOutput (RecvResult.failure msg :: es) s =
      .error ⟨"Communication Problem with Socket".toList⟩ := by
  simp [listenToSocketOutput, h]

/-- Full run of a fresh listener over marker-free chunks `pre` followed by a
chunk `c` containing the completion marker: the loop stops at `c`, the output
is the concatenation of `pre` alone, and the exceptions are the fatal lines
of all processed chunks, `c` included.  Events after `c` are never consumed. -/
lemma listen_prefix_marker (tid : List Char) (pre : List (List Char)) (c : List Char)
    (post : List RecvResult)
    (hpre : ∀ x ∈ pre, pyContains (doneMarker tid) x = false)
    (hc : pyContains (doneMarker tid) c = true) :
    listenToSocketOutput (pre.map RecvResult.chunk ++ RecvResult.chunk c :: post)
        (initThread tid) =
      .ok { thread_id := tid, running := false,
            execution_output := pre.flatten,
            java_exceptions := ((pre ++ [c]).flatMap (pySplit '\n')).filter reMatchFatal } := by
  rw [listen_clean_run pre (RecvResult.chunk c :: post) (initThread tid) rfl hpre]
  rw [listen_step_chunk c post _ rfl]
  rw [processChunk_marker _ c hc]
  rw [listen_stopped post _ rfl]
  simp [initThread, List.filter_append]

/-- A poll loop that only ever observes `running = True` does not return. -/
lemma getOutput_spins : ∀ trace : List CcsPythonExecutorThread,
    (∀ t ∈ trace, t.running = true) → getOutput trace = none
  | [], _ => rfl
  | t :: ts, h => by
    simp [getOutput, h t (by simp)]
    exact getOutput_spins ts (fun x hx => h x (by simp [hx]))

/-! ### Claim theorems -/

/-- C3: for every payload `P` and correlation id `I`, `executePythonContent`
performs exactly one write, of the framed text
`startContent:<I>\n + P + \nendContent:<I>\n`, and the decoder that takes the
text strictly between the `startContent:<I>` line and the `endContent:<I>`
line recovers `P` unchanged. -/
theorem framing_round_trip (thread_id P : List Char) :
    (executePythonContent thread_id P).length = 1
    ∧ (executePythonContent thread_id P).flatten =
        ("startContent:".toList ++ thread_id ++ ['\n']) ++ P ++
          (['\n'] ++ "endContent:".toList ++ thread_id ++ ['\n'])
    ∧ decodeBetween thread_id ((executePythonContent thread_id P).flatten) = P := by
  refine ⟨rfl, by simp [executePythonContent], ?_⟩
  have hform : (executePythonContent thread_id P).flatten =
      ("startContent:".toList ++ thread_id ++ ['\n']) ++
        (P ++ (['\n'] ++ "endContent:".toList ++ thread_id ++ ['\n'])) := by
    simp [executePythonContent]
  rw [hform]
  unfold decodeBetween
  rw [List.drop_left]
  have hlen : (("startContent:".toList ++ thread_id ++ ['\n']) ++
        (P ++ (['\n'] ++ "endContent:".toList ++ thread_id ++ ['\n']))).length -
      ("startContent:".toList ++ thread_id ++ ['\n']).length -
      (['\n'] ++ "endContent:".toList ++ thread_id ++ ['\n']).length = P.length := by
    simp [List.length_append]
    omega
  rw [hlen]
  exact List.take_left _ _

/-- C9: submitting payload `print(1+1)` with correlation id `abc123` writes
the framed text once; when the remote delivers the chunk `2\n` and then the
chunk `doneExecution:abc123\n`, the listener stops with accumulated output
exactly `2\n` and an empty exception list, and `getOutput()` returns `2\n`. -/
theorem scenario_print_two :
    executePythonContent ("abc123".toList) "print(1+1)".toList =
      ["startContent:abc123\nprint(1+1)\nendContent:abc123\n".toList]
    ∧ listenToSocketOutput
        [RecvResult.chunk ("2\n".toList), RecvResult.chunk ("doneExecution:abc123\n".toList)]
        (initThread ("abc123".toList)) =
      .ok { thread_id := "abc123".toList, running := false,
            execution_output := "2\n".toList, java_exceptions := [] }
    ∧ resultOutput (listenToSocketOutput
        [RecvResult.chunk ("2\n".toList), RecvResult.chunk ("doneExecution:abc123\n".toList)]
        (initThread ("abc123".toList))) = some ("2\n".toList) := by
  refine ⟨by decide, by decide, by decide⟩

/-- C1, counterexample: the stream whose content is `doneExecution:abc123\n`
delivered split as `doneExec` then `ution:abc123\n` contains the marker, but
no single chunk does, so the listener never sets `running` to `false` (and
even appends the marker text to the output).  Completion detection is NOT
independent of chunk boundaries. -/
theorem split_marker_not_detected :
    pyContains (doneMarker ("abc123".toList))
      ("doneExec".toList ++ "ution:abc123\n".toList) = true
    ∧ listenToSocketOutput
        [RecvResult.chunk ("doneExec".toList), RecvResult.chunk ("ution:abc123\n".toList)]
        (initThread ("abc123".toList)) =
      .ok { thread_id := "abc123".toList, running := true,
            execution_output := "doneExecution:abc123\n".toList,
            java_exceptions := [] } := by
  refine ⟨by decide, by decide⟩

/-- C1, amended: the listener sets `running = false` exactly once, upon the
first chunk that itself contains the substring `doneExecution:<I>`: `running`
is still `true` after any prefix of marker-free chunks, it is `false` after
the first chunk containing the marker, and the loop stops there (events after
that chunk are irrelevant).  A marker split across two chunks is not
detected (see the counterexample). -/
theorem running_cleared_on_first_marker_chunk (tid : List Char)
    (pre : List (List Char)) (c : List Char) (post : List RecvResult)
    (hpre : ∀ x ∈ pre, pyContains (doneMarker tid) x = false)
    (hc : pyContains (doneMarker tid) c = true) :
    (∃ fin, listenToSocketOutput (pre.map RecvResult.chunk ++ RecvResult.chunk c :: post)
        (initThread tid) = .ok fin ∧ fin.running = false)
    ∧ (∀ pre1 pre2, pre = pre1 ++ pre2 →
        ∃ mid, listenToSocketOutput (pre1.map RecvResult.chunk) (initThread tid) = .ok mid
          ∧ mid.running = true)
    ∧ (∀ post2, listenToSocketOutput
          (pre.map RecvResult.chunk ++ RecvResult.chunk c :: post) (initThread tid)
        = listenToSocketOutput
          (pre.map RecvResult.chunk ++ RecvResult.chunk c :: post2) (initThread tid)) := by
  refine ⟨⟨_, listen_prefix_marker tid pre c post hpre hc, rfl⟩, ?_, ?_⟩
  · intro pre1 pre2 hsplit
    have hpre1 : ∀ x ∈ pre1, pyContains (doneMarker tid) x = false := by
      intro x hx
      exact hpre x (by rw [hsplit]; exact List.mem_append_left _ hx)
    have h1 := listen_clean_run pre1 [] (initThread tid) rfl hpre1
    rw [List.append_nil] at h1
    exact ⟨_, h1, rfl⟩
  · intro post2
    rw [listen_prefix_marker tid pre c post hpre hc,
      listen_prefix_marker tid pre c post2 hpre hc]

/-- C1, witness: the amended statement at `tid = abc123`,
`pre = ["2\n"]`, `c = "doneExecution:abc123\n"`, `post = []`. -/
theorem running_cleared_on_first_marker_chunk_witness :
    (∃ fin, listenToSocketOutput
        ([("2\n").toList].map RecvResult.chunk ++
          RecvResult.chunk ("doneExecution:abc123\n".toList) :: [])
        (initThread ("abc123".toList)) = .ok fin ∧ fin.running = false)
    ∧ (∀ pre1 pre2, [("2\n").toList] = pre1 ++ pre2 →
        ∃ mid, listenToSocketOutput (pre1.map RecvResult.chunk)
          (initThread ("abc123".toList)) = .ok mid ∧ mid.running = true)
    ∧ (∀ post2, listenToSocketOutput
          ([("2\n").toList].map RecvResult.chunk ++
            RecvResult.chunk ("doneExecution:abc123\n".toList) :: [])
          (initThread ("abc123".toList))
        = listenToSocketOutput
          ([("2\n").toList].map RecvResult.chunk ++
            RecvResult.chunk ("doneExecution:abc123\n".toList) :: post2)
          (initThread ("abc123".toList))) :=
  running_cleared_on_first_marker_chunk ("abc123".toList) [("2\n").toList]
    "doneExecution:abc123\n".toList [] (by decide) (by decide)

/-- C2: a chunk containing the completion marker for the listener's own id
contributes nothing to the accumulated output, even when it carries user text
around the marker: the final output is exactly the concatenation of the
earlier, marker-free chunks. -/
theorem marker_chunk_discarded (tid : List Char) (pre : List (List Char))
    (c : List Char) (post : List RecvResult)
    (hpre : ∀ x ∈ pre, pyContains (doneMarker tid) x = false)
    (hc : pyContains (doneMarker tid) c = true) :
    ∃ fin, listenToSocketOutput (pre.map RecvResult.chunk ++ RecvResult.chunk c :: post)
        (initThread tid) = .ok fin
      ∧ fin.execution_output = pre.flatten
      ∧ fin.running = false :=
  ⟨_, listen_prefix_marker tid pre c post hpre hc, rfl, rfl⟩

/-- C2, witness: the marker chunk carries user text both before and after the
marker (`tail\ndoneExecution:abc123\nextra`); the output is still exactly the
earlier chunk `hello\n`. -/
theorem marker_chunk_discarded_witness :
    ∃ fin, listenToSocketOutput
        ([("hello\n").toList].map RecvResult.chunk ++
          RecvResult.chunk ("tail\ndoneExecution:abc123\nextra".toList) :: [])
        (initThread ("abc123".toList)) = .ok fin
      ∧ fin.execution_output = [("hello\n").toList].flatten
      ∧ fin.running = false :=
  marker_chunk_discarded ("abc123".toList) [("hello\n").toList]
    "tail\ndoneExecution:abc123\nextra".toList [] (by decide) (by decide)

/-- C4, counterexample: the dots of `java.lang.` are unescaped in the source
regex `re.compile(r'.*java.lang.\w*Exception.*')`, so the line
`java_lang_Exception` — which does NOT contain the token `java.lang.` and so
does not match the pattern as the claim words it — is nevertheless appended
to the exception list. -/
theorem fatal_pattern_dots_unescaped :
    listenToSocketOutput
        [RecvResult.chunk ("java_lang_Exception\n".toList),
          RecvResult.chunk ("doneExecution:abc".toList)]
        (initThread ("abc".toList)) =
      .ok { thread_id := "abc".toList, running := false,
            execution_output := "java_lang_Exception\n".toList,
            java_exceptions := ["java_lang_Exception".toList] }
    ∧ specFatalPattern ("java_lang_Exception".toList) = false := by
  refine ⟨by decide, by decide⟩

/-- C4, amended: a line of a processed chunk is appended verbatim to the
exception list if and only if it matches the source regex
`.*java.lang.\w*Exception.*`, in which the unescaped dots match any
character (so e.g. `java_lang_Exception` is also captured); the line
`java.lang.NullPointerException at Foo.bar` is captured, the line
`nothing bad here` is not, and capture never halts the listener loop, which
still runs to the marker chunk. -/
theorem exception_lines_iff_regex (tid : List Char) (pre : List (List Char))
    (c : List Char) (post : List RecvResult)
    (hpre : ∀ x ∈ pre, pyContains (doneMarker tid) x = false)
    (hc : pyContains (doneMarker tid) c = true) :
    (∃ fin, listenToSocketOutput (pre.map RecvResult.chunk ++ RecvResult.chunk c :: post)
        (initThread tid) = .ok fin
      ∧ fin.java_exceptions = ((pre ++ [c]).flatMap (pySplit '\n')).filter reMatchFatal
      ∧ (∀ l, l ∈ fin.java_exceptions ↔
          (l ∈ (pre ++ [c]).flatMap (pySplit '\n') ∧ reMatchFatal l = true))
      ∧ fin.running = false)
    ∧ reMatchFatal ("java.lang.NullPointerException at Foo.bar".toList) = true
    ∧ reMatchFatal ("nothing bad here".toList) = false := by
  refine ⟨⟨_, listen_prefix_marker tid pre c post hpre hc, rfl, ?_, rfl⟩,
    by decide, by decide⟩
  intro l
  simp [List.mem_filter]
  exact or_and_right.symm

/-- C4, witness: the amended statement at `tid = abc`, one clean chunk
carrying a fatal line, then the marker chunk. -/
theorem exception_lines_iff_regex_witness :
    (∃ fin, listenToSocketOutput
        ([("java.lang.NullPointerException at Foo.bar\nnothing bad here\n").toList].map
            RecvResult.chunk ++ RecvResult.chunk ("doneExecution:abc".toList) :: [])
        (initThread ("abc".toList)) = .ok fin
      ∧ fin.java_exceptions =
          ((([("java.lang.NullPointerException at Foo.bar\nnothing bad here\n").toList] ++
            ["doneExecution:abc".toList]).flatMap (pySplit '\n')).filter reMatchFatal)
      ∧ (∀ l, l ∈ fin.java_exceptions ↔
          (l ∈ ([("java.lang.NullPointerException at Foo.bar\nnothing bad here\n").toList] ++
            ["doneExecution:abc".toList]).flatMap (pySplit '\n') ∧ reMatchFatal l = true))
      ∧ fin.running = false)
    ∧ reMatchFatal ("java.lang.NullPointerException at Foo.bar".toList) = true
    ∧ reMatchFatal ("nothing bad here".toList) = false :=
  exception_lines_iff_regex ("abc".toList)
    [("java.lang.NullPointerException at Foo.bar\nnothing bad here\n").toList]
    "doneExecution:abc".toList [] (by decide) (by decide)

/-- C10: the fatal-line scan of a chunk happens before the completion-marker
test, so a fatal line arriving in the same chunk as the completion marker is
still appended to the exception list even though that whole chunk is excluded
from the accumulated output. -/
theorem fatal_scan_before_marker_test (tid : List Char) (pre : List (List Char))
    (c l : List Char) (post : List RecvResult)
    (hpre : ∀ x ∈ pre, pyContains (doneMarker tid) x = false)
    (hc : pyContains (doneMarker tid) c = true)
    (hl : l ∈ pySplit '\n' c) (hf : reMatchFatal l = true) :
    ∃ fin, listenToSocketOutput (pre.map RecvResult.chunk ++ RecvResult.chunk c :: post)
        (initThread tid) = .ok fin
      ∧ l ∈ fin.java_exceptions
      ∧ fin.execution_output = pre.flatten
      ∧ fin.running = false := by
  refine ⟨_, listen_prefix_marker tid pre c post hpre hc, ?_, rfl, rfl⟩
  exact List.mem_filter.mpr ⟨List.mem_flatMap.mpr ⟨c, by simp, hl⟩, hf⟩

/-- C10, witness: the fatal line `java.lang.NullPointerException at Foo.bar`
arrives in the very chunk that carries `doneExecution:abc123`; it is captured
while the output stays `ok\n`. -/
theorem fatal_scan_before_marker_test_witness :
    ∃ fin, listenToSocketOutput
        ([("ok\n").toList].map RecvResult.chunk ++
          RecvResult.chunk
            "java.lang.NullPointerException at Foo.bar\ndoneExecution:abc123\n".toList :: [])
        (initThread ("abc123".toList)) = .ok fin
      ∧ "java.lang.NullPointerException at Foo.bar".toList ∈ fin.java_exceptions
      ∧ fin.execution_output = [("ok\n").toList].flatten
      ∧ fin.running = false :=
  fatal_scan_before_marker_test ("abc123".toList) [("ok\n").toList]
    "java.lang.NullPointerException at Foo.bar\ndoneExecution:abc123\n".toList
    "java.lang.NullPointerException at Foo.bar".toList []
    (by decide) (by decide) (by decide) (by decide)

/-- C5: `getOutput()` never returns while the thread's `running` flag is
true (a poll loop observing only `running = true` states yields nothing);
once `running` is false it returns on the very first poll, whatever would
have been observed later, repeated calls return the same accumulated output,
and the stopped listener's state never changes again (so that output is
stable). -/
theorem getOutput_blocking_contract (trace : List CcsPythonExecutorThread)
    (h1 : ∀ t ∈ trace, t.running = true)
    (s : CcsPythonExecutorThread) (h2 : s.running = false)
    (rest1 rest2 : List CcsPythonExecutorThread) (events : List RecvResult) :
    getOutput trace = none
    ∧ getOutput (s :: rest1) = some s.execution_output
    ∧ getOutput (s :: rest2) = getOutput (s :: rest1)
    ∧ listenToSocketOutput events s = .ok s := by
  refine ⟨getOutput_spins trace h1, ?_, ?_, listen_stopped events s h2⟩
  · simp [getOutput, h2]
  · simp [getOutput, h2]

/-- C5, witness: a trace of still-running observations yields no return; a
finished thread returns `out` on the first poll, twice the same. -/
theorem getOutput_blocking_contract_witness :
    getOutput [⟨"i".toList, true, [], []⟩, ⟨"i".toList, true, "x".toList, []⟩] = none
    ∧ getOutput (⟨"i".toList, false, "out".toList, []⟩ :: []) =
        some (⟨"i".toList, false, "out".toList, []⟩ : CcsPythonExecutorThread).execution_output
    ∧ getOutput (⟨"i".toList, false, "out".toList, []⟩ ::
          [⟨"i".toList, true, [], []⟩]) =
        getOutput (⟨"i".toList, false, "out".toList, []⟩ :: [])
    ∧ listenToSocketOutput [RecvResult.chunk ("late".toList)]
        ⟨"i".toList, false, "out".toList, []⟩ =
        .ok ⟨"i".toList, false, "out".toList, []⟩ :=
  getOutput_blocking_contract
    [⟨"i".toList, true, [], []⟩, ⟨"i".toList, true, "x".toList, []⟩] (by decide)
    ⟨"i".toList, false, "out".toList, []⟩ (by decide)
    [] [⟨"i".toList, true, [], []⟩] [RecvResult.chunk ("late".toList)]

/-- C6: the connection attempt fails (with `CcsException`) if and only if
the socket cannot be opened or the single greeting read contains the literal
substring `ConnectionRefused`; equivalently `_socket_connection` succeeds
exactly when the socket opens and the greeting is refusal-free.  On refusal
no connection is returned; the model performs exactly one greeting read and
contains no retry. -/
theorem connect_fails_iff_refused (connect_ok : Bool) (greeting : List Char) :
    ((∃ e, interpreter_connect connect_ok greeting = .error e) ↔
      (connect_ok = false ∨ pyContains ("ConnectionRefused".toList) greeting = true))
    ∧ (socket_connection connect_ok greeting = .ok () ↔
      (connect_ok = true ∧ pyContains ("ConnectionRefused".toList) greeting = false)) := by
  cases connect_ok <;> cases hg : pyContains ("ConnectionRefused".toList) greeting <;>
    simp only [interpreter_connect, socket_connection, hg] <;> simp

/-- C7: when a socket read raises inside the listener loop (after any number
of marker-free chunks), the listener raises
`CcsException("Communication Problem with Socket")`; the failing read is not
retried and nothing after it is ever consumed (the result is the same for
every continuation `rest`), so the error propagates fatally to the owner. -/
theorem read_failure_fatal (tid : List Char) (pre : List (List Char))
    (msg : List Char) (rest : List RecvResult)
    (hpre : ∀ x ∈ pre, pyContains (doneMarker tid) x = false) :
    listenToSocketOutput (pre.map RecvResult.chunk ++ RecvResult.failure msg :: rest)
        (initThread tid) =
      .error ⟨"Communication Problem with Socket".toList⟩ := by
  rw [listen_clean_run pre (RecvResult.failure msg :: rest) (initThread tid) rfl hpre]
  exact listen_step_failure msg rest _ rfl

/-- C7, witness: one clean chunk, then a raising read; the chunks queued
after the failure are never reached. -/
theorem read_failure_fatal_witness :
    listenToSocketOutput
        ([("x\n").toList].map RecvResult.chunk ++
          RecvResult.failure ("Broken pipe".toList) ::
            [RecvResult.chunk ("doneExecution:abc".toList)])
        (initThread ("abc".toList)) =
      .error ⟨"Communication Problem with Socket".toList⟩ :=
  read_failure_fatal ("abc".toList) [("x\n").toList] "Broken pipe".toList
    [RecvResult.chunk ("doneExecution:abc".toList)] (by decide)

/-- C8: `syncExecution` performs exactly the submission of `aSyncExecution`
followed by `getOutput()` on the returned handle; whenever the listener run
for the same remote byte stream finishes (its final state has
`running = false`), the blocking `getOutput()` of the synchronous path
returns exactly the output the asynchronous path accumulates, and the handle
`syncExecution` returns has a finished listener. -/
theorem sync_equals_async_then_getOutput (tid content : List Char)
    (events : List RecvResult) (s : CcsPythonExecutorThread)
    (h : listenToSocketOutput events (initThread tid) = .ok s)
    (hdone : s.running = false) :
    syncExecution tid content events =
      ((aSyncExecution tid content events).1, (aSyncExecution tid content events).2,
        resultOutput (aSyncExecution tid content events).2)
    ∧ (syncExecution tid content events).2.2 = some s.execution_output
    ∧ (syncExecution tid content events).2.1 = .ok s
    ∧ (syncExecution tid content events).1 = (aSyncExecution tid content events).1 := by
  refine ⟨rfl, ?_, ?_, rfl⟩
  · simp [syncExecution, aSyncExecution, resultOutput, h, getOutput, hdone]
  · simp [syncExecution, aSyncExecution, h]

/-- C8, witness: the scenario stream (`2\n` then the marker) with payload
`print(1+1)`: the synchronous path returns the finished handle and output
`2\n`, equal to the asynchronous path followed by `getOutput()`. -/
theorem sync_equals_async_then_getOutput_witness :
    syncExecution ("abc123".toList) "print(1+1)".toList
        [RecvResult.chunk ("2\n".toList), RecvResult.chunk ("doneExecution:abc123\n".toList)] =
      ((aSyncExecution ("abc123".toList) "print(1+1)".toList
          [RecvResult.chunk ("2\n".toList),
            RecvResult.chunk ("doneExecution:abc123\n".toList)]).1,
        (aSyncExecution ("abc123".toList) "print(1+1)".toList
          [RecvResult.chunk ("2\n".toList),
            RecvResult.chunk ("doneExecution:abc123\n".toList)]).2,
        resultOutput (aSyncExecution ("abc123".toList) "print(1+1)".toList
          [RecvResult.chunk ("2\n".toList),
            RecvResult.chunk ("doneExecution:abc123\n".toList)]).2)
    ∧ (syncExecution ("abc123".toList) "print(1+1)".toList
        [RecvResult.chunk ("2\n".toList),
          RecvResult.chunk ("doneExecution:abc123\n".toList)]).2.2 =
      some ({ thread_id := "abc123".toList, running := false,
              execution_output := "2\n".toList, java_exceptions := [] } :
        CcsPythonExecutorThread).execution_output
    ∧ (syncExecution ("abc123".toList) "print(1+1)".toList
        [RecvResult.chunk ("2\n".toList),
          RecvResult.chunk ("doneExecution:abc123\n".toList)]).2.1 =
      .ok { thread_id := "abc123".toList, running := false,
            execution_output := "2\n".toList, java_exceptions := [] }
    ∧ (syncExecution ("abc123".toList) "print(1+1)".toList
        [RecvResult.chunk ("2\n".toList),
          RecvResult.chunk ("doneExecution:abc123\n".toList)]).1 =
      (aSyncExecution ("abc123".toList) "print(1+1)".toList
        [RecvResult.chunk ("2\n".toList),
          RecvResult.chunk ("doneExecution:abc123\n".toList)]).1 :=
  sync_equals_async_then_getOutput ("abc123".toList) "print(1+1)".toList
    [RecvResult.chunk ("2\n".toList), RecvResult.chunk ("doneExecution:abc123\n".toList)]
    { thread_id := "abc123".toList, running := false,
      execution_output := "2\n".toList, java_exceptions := [] }
    (by decide) (by decide)

end PythonBinding

